import Mathlib

/-!
# Verification of the python-robot orchestration core

Shallow embedding of the event bus (`src/core/event_bus.py`), the
supervisor (`src/core/agent_core.py`) and the speech-segmentation state
machine (`src/modules/audio_input/wake_word_vad.py`), together with
theorems settling the behavioural claims about them.
-/

namespace PythonRobot

/-! ## Deque with `maxlen` (collections.deque)

`rtake n l` keeps the last `n` elements of `l`: extending a
`deque(maxlen = n)` by new elements and reading it off as a list is
`rtake n (old ++ new)`. -/

def rtake (n : Nat) (l : List Int) : List Int :=
  l.drop (l.length - n)

/-! ## Speech segmentation state machine (`WakeWordVADModule`)

State fields mirror `__init__`: `speech_buffer` is the
`deque(maxlen=int(rate*10))` holding the in-progress utterance,
`vad_buffer` the `deque(maxlen=int(rate*0.1))` analysis window,
`last_speech_time` / `speech_detected` the timing state.  Times are in
milliseconds (`time.time() * 1000`), modelled as `Int`.  The VAD
classifier `_process_audio_chunk_for_vad` is abstracted as a function
`classify : List Int → Bool` on the analysis window; the claims about the
state machine quantify over its verdicts. -/

structure VADConfig where
  rate : Nat
  silence_timeout_ms : Int
deriving DecidableEq

structure VADState where
  speech_buffer : List Int
  vad_buffer : List Int
  last_speech_time : Option Int
  speech_detected : Bool
deriving DecidableEq

inductive VADEvent where
  | speech_start
  | audio_ready_for_stt (audio_data : List Int) (sample_rate : Nat)
      (sample_width : Nat) (channels : Nat)
deriving DecidableEq

def vadInit : VADState :=
  { speech_buffer := [], vad_buffer := [], last_speech_time := none,
    speech_detected := false }

/-- Byte length of an emitted payload: `tobytes()` of an int16 array is
`sample_width` bytes per sample. -/
def audioByteLen : VADEvent → Nat
  | VADEvent.speech_start => 0
  | VADEvent.audio_ready_for_stt data _ w _ => w * data.length

/-- Lines 207-211 of `wake_word_vad.py`: extend both deques by the chunk. -/
def stepBuffers (cfg : VADConfig) (s : VADState) (pcm : List Int) : VADState :=
  { s with
      speech_buffer := rtake (cfg.rate * 10) (s.speech_buffer ++ pcm),
      vad_buffer := rtake (cfg.rate / 10) (s.vad_buffer ++ pcm) }

/-- Lines 213-219: `is_speech` is `False` unless the accumulated VAD window
is nonempty, in which case the classifier decides. -/
def isSpeechStep (cfg : VADConfig) (classify : List Int → Bool)
    (s : VADState) (pcm : List Int) : Bool :=
  let vb := rtake (cfg.rate / 10) (s.vad_buffer ++ pcm)
  decide (0 < vb.length) && classify vb

/-- Model of `_handle_speech_end`: emits only when the buffer is nonempty, then
clears the buffer and the timing state. -/
def handleSpeechEnd (cfg : VADConfig) (s : VADState) :
    VADState × List VADEvent :=
  if 0 < s.speech_buffer.length then
    ({ s with
         speech_buffer := [],
         last_speech_time := none,
         speech_detected := false },
     [VADEvent.audio_ready_for_stt s.speech_buffer cfg.rate 2 1])
  else (s, [])

/-- Model of `process_audio_chunk`: extend the buffers, classify, then either handle
speech start (emitting `speech_start` only on a `False → True` edge of
`speech_detected`) or check the silence timeout.  The Python guard
`if self.speech_detected and self.last_speech_time` is truthiness: a
`None` or zero `last_speech_time` skips the timeout check. -/
def processAudioChunk (cfg : VADConfig) (classify : List Int → Bool)
    (s : VADState) (pcm : List Int) (now : Int) : VADState × List VADEvent :=
  let s1 := stepBuffers cfg s pcm
  if isSpeechStep cfg classify s pcm then
    ({ s1 with last_speech_time := some now, speech_detected := true },
     if s.speech_detected then [] else [VADEvent.speech_start])
  else
    match s1.last_speech_time with
    | some lst =>
        if s1.speech_detected && (lst != 0)
            && decide (cfg.silence_timeout_ms ≤ now - lst) then
          handleSpeechEnd cfg s1
        else (s1, [])
    | none => (s1, [])

/-- Run the state machine over a list of `(chunk, time)` steps, collecting
emitted events in order. -/
def runVAD (cfg : VADConfig) (classify : List Int → Bool) :
    VADState → List (List Int × Int) → VADState × List VADEvent
  | s, [] => (s, [])
  | s, st :: rest =>
      let r := processAudioChunk cfg classify s st.1 st.2
      let rr := runVAD cfg classify r.1 rest
      (rr.1, r.2 ++ rr.2)

/-- The classifier verdict at each step of a run. -/
def vadTrace (cfg : VADConfig) (classify : List Int → Bool) :
    VADState → List (List Int × Int) → List Bool
  | _, [] => []
  | s, st :: rest =>
      isSpeechStep cfg classify s st.1 ::
        vadTrace cfg classify (processAudioChunk cfg classify s st.1 st.2).1 rest

/-- Concatenation of the sample chunks of a step list. -/
def chunksFlat (steps : List (List Int × Int)) : List Int :=
  steps.foldr (fun p acc => p.1 ++ acc) []

/-! ## Zero-crossing criterion of `_process_audio_chunk_for_vad`

Line 129 of `wake_word_vad.py` computes
`np.sum((pcm[1:] >= 0) != (pcm[:-1] < 0))`, i.e. for each adjacent pair
`(a, b) = (pcm[i], pcm[i+1])` it counts `(b >= 0) != (a < 0)`; line 130
divides by `len(pcm) - 1`; line 150 tests `0.1 < zcr < 0.5`. -/

def zeroCrossings (pcm : List Int) : Nat :=
  (List.zipWith (fun a b => decide (0 ≤ b) != decide (a < 0)) pcm pcm.tail).count true

def zcr (pcm : List Int) : ℚ :=
  if 1 < pcm.length then (zeroCrossings pcm : ℚ) / ((pcm.length : ℚ) - 1) else 0

def zcrOk (pcm : List Int) : Bool :=
  decide ((1 : ℚ) / 10 < zcr pcm) && decide (zcr pcm < 1 / 2)

/-- Following the words of the specification, for comparison with `zcr`: the
fraction of adjacent-sample sign changes, a pair `(a, b)` changing sign
when `(a ≥ 0) ≠ (b ≥ 0)`. -/
def specSignChangeCount (pcm : List Int) : Nat :=
  (List.zipWith (fun a b => decide (0 ≤ a) != decide (0 ≤ b)) pcm pcm.tail).count true

/-- Following the words of the specification: the sign-change fraction. -/
def specSignChangeFrac (pcm : List Int) : ℚ :=
  if 1 < pcm.length then (specSignChangeCount pcm : ℚ) / ((pcm.length : ℚ) - 1) else 0

/-! ## Event bus (`src/core/event_bus.py`)

`subscribers` is a dict from event-type string to a list of queues; the
default queue receives every event.  Queues are modelled as lists in FIFO
order (`put` appends at the back).  The payload type is a parameter. -/

structure EventBus (α : Type) where
  subscribers : List (String × List (List (String × α)))
  default_queue : List (String × α)

/-- Point update of every dict entry whose key is `ty` (a Python dict has
at most one). -/
def updateSubs {α : Type} (subs : List (String × List (List (String × α))))
    (ty : String) (g : List (List (String × α)) → List (List (String × α))) :
    List (String × List (List (String × α))) :=
  subs.map fun kv => if kv.1 = ty then (kv.1, g kv.2) else kv

/-- Model of `EventBus.emit`: append the event to every queue registered under its
type (if the type is a key at all) and to the default queue. -/
def emit {α : Type} (bus : EventBus α) (event_type : String) (payload : α) :
    EventBus α :=
  { subscribers := updateSubs bus.subscribers event_type
      (fun qs => qs.map fun q => q ++ [(event_type, payload)]),
    default_queue := bus.default_queue ++ [(event_type, payload)] }

def busLookup {α : Type} (bus : EventBus α) (ty : String) :
    Option (List (List (String × α))) :=
  (bus.subscribers.find? fun kv => kv.1 == ty).map Prod.snd

/-- The registration half of `EventBus.listen(event_type)` for a non-`None`
type: ensure the key exists, then append a brand-new empty queue.  The
subsequent `await queue.get()` returns the head of that queue once
nonempty. -/
def listenRegister {α : Type} (bus : EventBus α) (event_type : String) :
    EventBus α :=
  let subs :=
    if (bus.subscribers.find? fun kv => kv.1 == event_type).isSome then
      bus.subscribers
    else bus.subscribers ++ [(event_type, [])]
  { bus with subscribers := updateSubs subs event_type (fun qs => qs ++ [[]]) }

/-- Fold a list of `(type, payload)` publishes over the bus. -/
def emitAll {α : Type} (bus : EventBus α) : List (String × α) → EventBus α
  | [] => bus
  | (t, p) :: rest => emitAll (emit bus t p) rest

/-! ## Supervisor chat workflow (`AgentCore._handle_transcription`)

The backend gateway `BackendConnector.chat` is abstracted as a function
from the message and the current history to `Except`: `Except.error`
models the call raising (e.g. a `ReadTimeout`), `Except.ok` a returned
JSON object.  A chat-history turn is a `(role, content)` pair; the third
component of the result counts gateway calls made; the middle component
is the list of events published (`agent_response` with its text). -/

structure ChatResponse where
  error : Option String
  response : Option String
deriving DecidableEq

structure ChatResult where
  response : Option ChatResponse
  paymentResponse : Option String
deriving DecidableEq

/-- The guard `not text or not text.strip()`: a string is blank exactly
when every character is whitespace (the empty string included). -/
def strBlank (text : String) : Bool :=
  text.data.all Char.isWhitespace

/-- Model of `_handle_transcription` (lines 41-91 of `agent_core.py`): blank text
returns at once; otherwise the gateway is called, and only after it
returns is the `user` turn appended; a response dict with an `error` key
is logged only; one with a `response` key appends the `assistant` turn and
publishes `agent_response`; any raise is caught and logged. -/
def handleTranscription
    (chat : String → List (String × String) → Except String ChatResult)
    (hist : List (String × String)) (text : String) :
    List (String × String) × List (String × String) × Nat :=
  if strBlank text then (hist, [], 0)
  else
    match chat text hist with
    | Except.error _ => (hist, [], 1)
    | Except.ok result =>
        let hist1 := hist ++ [("user", text)]
        match result.response with
        | none => (hist1, [], 1)
        | some resp =>
            match resp.error with
            | some _ => (hist1, [], 1)
            | none =>
                match resp.response with
                | some agent =>
                    (hist1 ++ [("assistant", agent)], [("agent_response", agent)], 1)
                | none => (hist1, [], 1)

/-- An event as seen by the dispatch loop: its type tag and, for
`transcription` events, the optional `text` field of the payload (the only
payload field that influences behaviour; the rest is logged). -/
structure DispatchEvent where
  type : String
  text : Option String
deriving DecidableEq

/-- One arm of the dispatch in `_event_handler_loop` on a received event:
`transcription` invokes the chat workflow with `payload.get("text")`
(a missing text behaves like a blank one); every other type only logs. -/
def dispatchEvent
    (chat : String → List (String × String) → Except String ChatResult)
    (hist : List (String × String)) (ev : DispatchEvent) :
    List (String × String) × List (String × String) × Nat :=
  if ev.type = "transcription" then
    handleTranscription chat hist (ev.text.getD "")
  else (hist, [], 0)

/-- The `try`/`except` of the loop body: a handler that raises leaves the
history untouched, logs, and the loop moves on. -/
def eventHandlerStep
    (handler : List (String × String) → DispatchEvent →
      Except String (List (String × String) × List (String × String) × Nat))
    (hist : List (String × String)) (ev : DispatchEvent) :
    List (String × String) × (List (String × String) × Nat) :=
  match handler hist ev with
  | Except.ok r => (r.1, (r.2.1, r.2.2))
  | Except.error _ => (hist, ([], 0))

/-- Model of `_event_handler_loop` run over a finite stream of events; returns the
final history and, per processed event, the published events and gateway
call count of that iteration. -/
def eventHandlerLoop
    (handler : List (String × String) → DispatchEvent →
      Except String (List (String × String) × List (String × String) × Nat)) :
    List (String × String) → List DispatchEvent →
    List (String × String) × List (List (String × String) × Nat)
  | hist, [] => (hist, [])
  | hist, ev :: rest =>
      let r := eventHandlerStep handler hist ev
      let rr := eventHandlerLoop handler r.1 rest
      (rr.1, r.2 :: rr.2)

/-- The real dispatch body never raises to the loop: all gateway failures
are caught inside `_handle_transcription`. -/
def dispatchHandler
    (chat : String → List (String × String) → Except String ChatResult)
    (hist : List (String × String)) (ev : DispatchEvent) :
    Except String (List (String × String) × List (String × String) × Nat) :=
  Except.ok (dispatchEvent chat hist ev)

/-! ## Supervisor startup (`AgentCore.start`)

For each module in configured order: `await module.start()` (no `try`, so
a raise propagates out of `AgentCore.start`), then schedule its `loop()`
task.  The result triple is (modules whose `start()` was invoked, modules
whose loop task was scheduled, the propagated error if any). -/

def agentCoreStart {M E : Type} (startFn : M → Except E Unit) :
    List M → List M × List M × Option E
  | [] => ([], [], none)
  | m :: rest =>
      match startFn m with
      | Except.error e => ([m], [], some e)
      | Except.ok _ =>
          let r := agentCoreStart startFn rest
          (m :: r.1, m :: r.2.1, r.2.2)

/-! ## Concrete instances used by counterexamples and witnesses -/

/-- Configuration of the scenario in the spec: 16 kHz, 1000 ms timeout. -/
def cexCfg : VADConfig := { rate := 16000, silence_timeout_ms := 1000 }

/-- A concrete classifier for the C1 counterexample run: the window is
speech exactly when its most recent sample is `5`. -/
def cexClassify (w : List Int) : Bool := w.getLast? == some 5

/-- The C1 counterexample run: a silent chunk before speech starts, one
speech chunk, a short in-utterance pause, the chunk that crosses the
silence timeout, and one trailing silent chunk. -/
def cexSteps : List (List Int × Int) :=
  [([0, 0], 1000), ([5], 1100), ([0], 1300), ([0], 2200), ([0], 2300)]

/-- A classifier that never reports speech (used by witnesses). -/
def silentClassify (_w : List Int) : Bool := false

/-- A concrete SPEAKING state (used by witnesses). -/
def wSpeakState : VADState :=
  { speech_buffer := [7], vad_buffer := [], last_speech_time := some 1000,
    speech_detected := true }

/-- A gateway that always raises (a read timeout, say). -/
def raisingChat (_text : String) (_hist : List (String × String)) :
    Except String ChatResult :=
  Except.error "ReadTimeout"

/-- A gateway that returns successfully but with an error field in the
response dict. -/
def errorFieldChat (_text : String) (_hist : List (String × String)) :
    Except String ChatResult :=
  Except.ok { response := some { error := some "timeout", response := none },
              paymentResponse := none }

/-- A concrete bus with one subscriber for `"a"` and one for `"b"`. -/
def wBus : EventBus Nat :=
  { subscribers := [("a", [[]]), ("b", [[]])], default_queue := [] }

/-! ## Lemmas on `rtake` (deque semantics) -/

theorem rtake_of_le {n : Nat} {l : List Int} (h : l.length ≤ n) :
    rtake n l = l := by
  unfold rtake
  rw [Nat.sub_eq_zero_of_le h, List.drop_zero]

theorem rtake_cons {n : Nat} (x : Int) {l : List Int} (h : n ≤ l.length) :
    rtake n (x :: l) = rtake n l := by
  unfold rtake
  have h1 : (x :: l).length - n = (l.length - n) + 1 := by
    simp only [List.length_cons]; omega
  rw [h1, List.drop_succ_cons]

theorem rtake_length_le (n : Nat) (l : List Int) : (rtake n l).length ≤ n := by
  unfold rtake
  rw [List.length_drop]
  omega

theorem rtake_pos {n : Nat} {l : List Int} (hn : 0 < n) (hl : l ≠ []) :
    0 < (rtake n l).length := by
  have hlen : 0 < l.length := List.length_pos.mpr hl
  unfold rtake
  rw [List.length_drop]
  omega

/-- Extending a full deque twice is the same as extending it once with the
concatenation: `rtake` absorbs an inner `rtake` on the left. -/
theorem rtake_append_rtake (n : Nat) (a b : List Int) :
    rtake n (rtake n a ++ b) = rtake n (a ++ b) := by
  induction a with
  | nil => simp [rtake]
  | cons x a ih =>
      by_cases h : (x :: a).length ≤ n
      · rw [rtake_of_le h]
      · push_neg at h
        have h1 : n ≤ a.length := by
          simp only [List.length_cons] at h; omega
        have h2 : n ≤ (a ++ b).length := by
          rw [List.length_append]; omega
        rw [rtake_cons x h1, ih, List.cons_append, rtake_cons x h2]

/-! ## Small-step characterisations of `processAudioChunk` -/

theorem chunksFlat_nil : chunksFlat [] = [] := rfl

theorem chunksFlat_cons (st : List Int × Int) (rest : List (List Int × Int)) :
    chunksFlat (st :: rest) = st.1 ++ chunksFlat rest := rfl

theorem stepBuffers_last_speech_time (cfg : VADConfig) (s : VADState)
    (pcm : List Int) :
    (stepBuffers cfg s pcm).last_speech_time = s.last_speech_time := rfl

theorem stepBuffers_speech_detected (cfg : VADConfig) (s : VADState)
    (pcm : List Int) :
    (stepBuffers cfg s pcm).speech_detected = s.speech_detected := rfl

/-- A silent verdict while not `SPEAKING` only shifts the buffers. -/
theorem processAudioChunk_silent_idle (cfg : VADConfig)
    (classify : List Int → Bool) (s : VADState) (pcm : List Int) (now : Int)
    (hcl : isSpeechStep cfg classify s pcm = false)
    (hsd : s.speech_detected = false) :
    processAudioChunk cfg classify s pcm now = (stepBuffers cfg s pcm, []) := by
  have hsd1 : (stepBuffers cfg s pcm).speech_detected = false := hsd
  unfold processAudioChunk
  rw [hcl]
  cases h : (stepBuffers cfg s pcm).last_speech_time <;> simp [h, hsd1]

/-- A silent verdict while `SPEAKING`, before the timeout elapses, only
shifts the buffers. -/
theorem processAudioChunk_silent_short (cfg : VADConfig)
    (classify : List Int → Bool) (s : VADState) (pcm : List Int) (now t : Int)
    (hcl : isSpeechStep cfg classify s pcm = false)
    (hlst : s.last_speech_time = some t)
    (hshort : now - t < cfg.silence_timeout_ms) :
    processAudioChunk cfg classify s pcm now = (stepBuffers cfg s pcm, []) := by
  have hlst1 : (stepBuffers cfg s pcm).last_speech_time = some t := hlst
  have hd : decide (cfg.silence_timeout_ms ≤ now - t) = false :=
    decide_eq_false (not_le.mpr hshort)
  unfold processAudioChunk
  rw [hcl]
  simp [hlst1, hd]

/-- A silent verdict while `SPEAKING`, once the timeout has elapsed (and
`last_speech_time` is truthy), runs `_handle_speech_end` on the shifted
buffers. -/
theorem processAudioChunk_silent_timeout (cfg : VADConfig)
    (classify : List Int → Bool) (s : VADState) (pcm : List Int) (now t : Int)
    (hcl : isSpeechStep cfg classify s pcm = false)
    (hsd : s.speech_detected = true)
    (hlst : s.last_speech_time = some t) (ht : t ≠ 0)
    (hlong : cfg.silence_timeout_ms ≤ now - t) :
    processAudioChunk cfg classify s pcm now =
      handleSpeechEnd cfg (stepBuffers cfg s pcm) := by
  have hlst1 : (stepBuffers cfg s pcm).last_speech_time = some t := hlst
  have hsd1 : (stepBuffers cfg s pcm).speech_detected = true := hsd
  have hd : decide (cfg.silence_timeout_ms ≤ now - t) = true := decide_eq_true hlong
  have hb : (t != 0) = true := bne_iff_ne.mpr ht
  unfold processAudioChunk
  rw [hcl]
  simp [hlst1, hsd1, hd, hb]

/-! ## Run and trace lemmas -/

theorem runVAD_nil (cfg : VADConfig) (classify : List Int → Bool)
    (s : VADState) : runVAD cfg classify s [] = (s, []) := rfl

theorem runVAD_cons (cfg : VADConfig) (classify : List Int → Bool)
    (s : VADState) (st : List Int × Int) (rest : List (List Int × Int)) :
    runVAD cfg classify s (st :: rest) =
      ((runVAD cfg classify (processAudioChunk cfg classify s st.1 st.2).1 rest).1,
       (processAudioChunk cfg classify s st.1 st.2).2 ++
         (runVAD cfg classify (processAudioChunk cfg classify s st.1 st.2).1 rest).2) := rfl

theorem vadTrace_nil (cfg : VADConfig) (classify : List Int → Bool)
    (s : VADState) : vadTrace cfg classify s [] = [] := rfl

theorem vadTrace_cons (cfg : VADConfig) (classify : List Int → Bool)
    (s : VADState) (st : List Int × Int) (rest : List (List Int × Int)) :
    vadTrace cfg classify s (st :: rest) =
      isSpeechStep cfg classify s st.1 ::
        vadTrace cfg classify (processAudioChunk cfg classify s st.1 st.2).1 rest := rfl

theorem runVAD_append (cfg : VADConfig) (classify : List Int → Bool)
    (l1 l2 : List (List Int × Int)) (s : VADState) :
    runVAD cfg classify s (l1 ++ l2) =
      ((runVAD cfg classify (runVAD cfg classify s l1).1 l2).1,
       (runVAD cfg classify s l1).2 ++
         (runVAD cfg classify (runVAD cfg classify s l1).1 l2).2) := by
  induction l1 generalizing s with
  | nil => simp [runVAD]
  | cons st rest ih =>
      rw [List.cons_append, runVAD_cons, ih, runVAD_cons]
      simp [List.append_assoc]

theorem vadTrace_append (cfg : VADConfig) (classify : List Int → Bool)
    (l1 l2 : List (List Int × Int)) (s : VADState) :
    vadTrace cfg classify s (l1 ++ l2) =
      vadTrace cfg classify s l1 ++
        vadTrace cfg classify (runVAD cfg classify s l1).1 l2 := by
  induction l1 generalizing s with
  | nil => simp [vadTrace, runVAD]
  | cons st rest ih =>
      rw [List.cons_append, vadTrace_cons, ih, vadTrace_cons, runVAD_cons]
      simp

theorem vadTrace_take (cfg : VADConfig) (classify : List Int → Bool)
    (n : Nat) (steps : List (List Int × Int)) (s : VADState) :
    vadTrace cfg classify s (steps.take n) =
      (vadTrace cfg classify s steps).take n := by
  induction steps generalizing s n with
  | nil => simp [vadTrace]
  | cons st rest ih =>
      cases n with
      | zero => simp [vadTrace]
      | succ n => simp [vadTrace_cons, ih]

/-- An all-silent run from a non-`SPEAKING` state emits nothing and keeps
`speech_detected = false` and `last_speech_time` unchanged. -/
theorem silentRun (cfg : VADConfig) (classify : List Int → Bool)
    (steps : List (List Int × Int)) :
    ∀ s : VADState, s.speech_detected = false →
      (∀ b ∈ vadTrace cfg classify s steps, b = false) →
      (runVAD cfg classify s steps).2 = [] ∧
      (runVAD cfg classify s steps).1.speech_detected = false ∧
      (runVAD cfg classify s steps).1.last_speech_time = s.last_speech_time := by
  induction steps with
  | nil =>
      intro s hsd _
      exact ⟨rfl, hsd, rfl⟩
  | cons st rest ih =>
      intro s hsd htr
      have h0 : isSpeechStep cfg classify s st.1 = false :=
        htr _ (by rw [vadTrace_cons]; exact List.mem_cons_self _ _)
      have hstep := processAudioChunk_silent_idle cfg classify s st.1 st.2 h0 hsd
      have htr1 : ∀ b ∈ vadTrace cfg classify (stepBuffers cfg s st.1) rest,
          b = false := by
        intro b hb
        apply htr
        rw [vadTrace_cons, hstep]
        exact List.mem_cons_of_mem _ hb
      have hrest := ih (stepBuffers cfg s st.1) hsd htr1
      rw [runVAD_cons, hstep]
      exact ⟨by simp [hrest.1], hrest.2.1, hrest.2.2⟩

/-- An all-silent run from a `SPEAKING` state, every chunk arriving before
the silence timeout, emits nothing, stays `SPEAKING` with the same
`last_speech_time`, and both deques keep accumulating the chunks. -/
theorem speakingGapRun (cfg : VADConfig) (classify : List Int → Bool)
    (t : Int) (steps : List (List Int × Int)) :
    ∀ s : VADState, s.speech_detected = true →
      s.last_speech_time = some t →
      s.speech_buffer.length ≤ cfg.rate * 10 →
      s.vad_buffer.length ≤ cfg.rate / 10 →
      (∀ b ∈ vadTrace cfg classify s steps, b = false) →
      (∀ p ∈ steps, p.2 - t < cfg.silence_timeout_ms) →
      runVAD cfg classify s steps =
        ({ speech_buffer := rtake (cfg.rate * 10) (s.speech_buffer ++ chunksFlat steps),
           vad_buffer := rtake (cfg.rate / 10) (s.vad_buffer ++ chunksFlat steps),
           last_speech_time := some t, speech_detected := true }, []) := by
  induction steps with
  | nil =>
      intro s hsd hlst hsb hvb _ _
      rw [runVAD_nil, chunksFlat_nil, List.append_nil, List.append_nil,
        rtake_of_le hsb, rtake_of_le hvb]
      cases s
      simp only at hsd hlst
      simp [hsd, hlst]
  | cons st rest ih =>
      intro s hsd hlst hsb hvb htr htime
      have h0 : isSpeechStep cfg classify s st.1 = false :=
        htr _ (by rw [vadTrace_cons]; exact List.mem_cons_self _ _)
      have hstep := processAudioChunk_silent_short cfg classify s st.1 st.2 t h0
        hlst (htime st (List.mem_cons_self _ _))
      have htr1 : ∀ b ∈ vadTrace cfg classify (stepBuffers cfg s st.1) rest,
          b = false := by
        intro b hb
        apply htr
        rw [vadTrace_cons, hstep]
        exact List.mem_cons_of_mem _ hb
      have htime1 : ∀ p ∈ rest, p.2 - t < cfg.silence_timeout_ms :=
        fun p hp => htime p (List.mem_cons_of_mem _ hp)
      have hrest := ih (stepBuffers cfg s st.1) hsd hlst
        (rtake_length_le _ _) (rtake_length_le _ _) htr1 htime1
      rw [runVAD_cons, hstep, hrest]
      simp only [stepBuffers]
      rw [rtake_append_rtake, rtake_append_rtake, List.append_assoc,
        chunksFlat_cons]
      simp

/-- The triggering step: a silent verdict in a truthy `SPEAKING` state at or
past the silence timeout emits the (nonempty) shifted utterance buffer and
resets the state. -/
theorem processAudioChunk_emits (cfg : VADConfig) (classify : List Int → Bool)
    (sA : VADState) (pcm : List Int) (now t : Int)
    (hclA : isSpeechStep cfg classify sA pcm = false)
    (hsdA : sA.speech_detected = true)
    (hlstA : sA.last_speech_time = some t) (ht : t ≠ 0)
    (hnow : cfg.silence_timeout_ms ≤ now - t)
    (hlen : 0 < (rtake (cfg.rate * 10) (sA.speech_buffer ++ pcm)).length) :
    processAudioChunk cfg classify sA pcm now =
      ({ speech_buffer := [],
         vad_buffer := rtake (cfg.rate / 10) (sA.vad_buffer ++ pcm),
         last_speech_time := none, speech_detected := false },
       [VADEvent.audio_ready_for_stt
          (rtake (cfg.rate * 10) (sA.speech_buffer ++ pcm)) cfg.rate 2 1]) := by
  rw [processAudioChunk_silent_timeout cfg classify sA pcm now t hclA hsdA hlstA
    ht hnow]
  simp only [handleSpeechEnd, stepBuffers]
  rw [if_pos hlen]

/-! ## C7 — segmentation idempotence -/

/-- C7: from the initial `SILENT` state, a chunk sequence classified
all-silent emits no event at all and leaves `speech_detected = false` after
every prefix. -/
theorem vad_silent_idempotence (cfg : VADConfig) (classify : List Int → Bool)
    (steps : List (List Int × Int))
    (h : ∀ b ∈ vadTrace cfg classify vadInit steps, b = false) :
    (runVAD cfg classify vadInit steps).2 = [] ∧
    ∀ n : Nat,
      (runVAD cfg classify vadInit (steps.take n)).1.speech_detected = false := by
  constructor
  · exact (silentRun cfg classify steps vadInit rfl h).1
  · intro n
    have hsub : ∀ b ∈ vadTrace cfg classify vadInit (steps.take n), b = false := by
      intro b hb
      rw [vadTrace_take] at hb
      exact h b (List.take_subset n _ hb)
    exact (silentRun cfg classify (steps.take n) vadInit rfl hsub).2.1

/-- Witness for C7 at a concrete all-silent run. -/
theorem vad_silent_idempotence_witness :
    vadTrace cexCfg silentClassify vadInit [([1], 5), ([2], 6)] = [false, false] ∧
    (runVAD cexCfg silentClassify vadInit [([1], 5), ([2], 6)]).2 = [] ∧
    (runVAD cexCfg silentClassify vadInit
      ([([1], 5), ([2], 6)].take 2)).1.speech_detected = false :=
  ⟨by decide,
   (vad_silent_idempotence cexCfg silentClassify [([1], 5), ([2], 6)]
     (by decide)).1,
   (vad_silent_idempotence cexCfg silentClassify [([1], 5), ([2], 6)]
     (by decide)).2 2⟩

/-! ## C6 — segmentation hysteresis -/

/-- C6: once `SPEAKING`, an all-silent gap in which every chunk arrives
strictly before the silence timeout emits nothing, stays `SPEAKING` with
`last_speech_time` unchanged, and the utterance deque keeps accumulating
every chunk of the gap. -/
theorem vad_hysteresis (cfg : VADConfig) (classify : List Int → Bool)
    (t : Int) (s : VADState) (steps : List (List Int × Int))
    (hsd : s.speech_detected = true)
    (hlst : s.last_speech_time = some t)
    (hsb : s.speech_buffer.length ≤ cfg.rate * 10)
    (hvb : s.vad_buffer.length ≤ cfg.rate / 10)
    (htr : ∀ b ∈ vadTrace cfg classify s steps, b = false)
    (hshort : ∀ p ∈ steps, p.2 - t < cfg.silence_timeout_ms) :
    (runVAD cfg classify s steps).2 = [] ∧
    (runVAD cfg classify s steps).1.speech_detected = true ∧
    (runVAD cfg classify s steps).1.last_speech_time = some t ∧
    (runVAD cfg classify s steps).1.speech_buffer =
      rtake (cfg.rate * 10) (s.speech_buffer ++ chunksFlat steps) := by
  rw [speakingGapRun cfg classify t steps s hsd hlst hsb hvb htr hshort]
  exact ⟨rfl, rfl, rfl, rfl⟩

/-- Witness for C6 at a concrete in-utterance pause. -/
theorem vad_hysteresis_witness :
    vadTrace cexCfg silentClassify wSpeakState [([1], 1100), ([2], 1500)]
      = [false, false] ∧
    (runVAD cexCfg silentClassify wSpeakState [([1], 1100), ([2], 1500)]).2 = [] ∧
    (runVAD cexCfg silentClassify wSpeakState
      [([1], 1100), ([2], 1500)]).1.speech_detected = true ∧
    (runVAD cexCfg silentClassify wSpeakState
      [([1], 1100), ([2], 1500)]).1.speech_buffer
      = rtake (cexCfg.rate * 10)
          (wSpeakState.speech_buffer ++ chunksFlat [([1], 1100), ([2], 1500)]) :=
  ⟨by decide,
   (vad_hysteresis cexCfg silentClassify 1000 wSpeakState
     [([1], 1100), ([2], 1500)] rfl rfl (by decide) (by decide) (by decide)
     (by decide)).1,
   (vad_hysteresis cexCfg silentClassify 1000 wSpeakState
     [([1], 1100), ([2], 1500)] rfl rfl (by decide) (by decide) (by decide)
     (by decide)).2.1,
   (vad_hysteresis cexCfg silentClassify 1000 wSpeakState
     [([1], 1100), ([2], 1500)] rfl rfl (by decide) (by decide) (by decide)
     (by decide)).2.2.2⟩

/-! ## C1 — segmentation emission -/

/-- C1 (counterexample to the claim as stated): in the concrete run
`cexSteps`, one silent chunk of two samples is fed while still `SILENT`,
then a speech chunk triggers `speech_start`, then silence crosses the
timeout.  Exactly one `audio_ready_for_stt` is emitted, but its payload is
the whole buffer since startup — 5 samples, 10 bytes — whereas the chunks
fed from the `speech_start` chunk on hold only 3 samples (2 excluding the
triggering chunk), so the payload byte length is neither `2 * 3` nor
`2 * 2`; and after the trailing silent chunk the buffer is `[0]`, not
empty. -/
theorem vad_emission_counterexample :
    (runVAD cexCfg cexClassify vadInit cexSteps).2 =
      [VADEvent.speech_start,
       VADEvent.audio_ready_for_stt [0, 0, 5, 0, 0] 16000 2 1] ∧
    audioByteLen (VADEvent.audio_ready_for_stt [0, 0, 5, 0, 0] 16000 2 1) = 10 ∧
    (chunksFlat [([5], 1100), ([0], 1300), ([0], 2200)]).length = 3 ∧
    10 ≠ 2 * 3 ∧ 10 ≠ 2 * 2 ∧
    (runVAD cexCfg cexClassify vadInit cexSteps).1.speech_buffer = [0] ∧
    (runVAD cexCfg cexClassify vadInit cexSteps).1.speech_detected = false := by
  decide

/-- C1 (amended): from a truthy `SPEAKING` state, an all-silent run whose
chunks stay under the timeout until one chunk reaches it emits exactly one
`audio_ready_for_stt`; its payload is the whole utterance deque at the
trigger — everything accumulated since the buffer was last cleared,
including the silence gap, capped at `rate * 10` samples — at 2 bytes per
sample; immediately after the trigger the state is `SILENT` with an empty
buffer, and further silent chunks emit nothing and leave it `SILENT`. -/
theorem vad_emission_amended (cfg : VADConfig) (classify : List Int → Bool)
    (s : VADState) (t : Int) (pre post : List (List Int × Int))
    (pcm : List Int) (now : Int)
    (hsd : s.speech_detected = true)
    (hlst : s.last_speech_time = some t) (ht : t ≠ 0)
    (hsb : s.speech_buffer ≠ [])
    (hsbLen : s.speech_buffer.length ≤ cfg.rate * 10)
    (hvbLen : s.vad_buffer.length ≤ cfg.rate / 10)
    (hrate : 0 < cfg.rate)
    (htr : ∀ b ∈ vadTrace cfg classify s (pre ++ (pcm, now) :: post), b = false)
    (hpre : ∀ p ∈ pre, p.2 - t < cfg.silence_timeout_ms)
    (hnow : cfg.silence_timeout_ms ≤ now - t) :
    (runVAD cfg classify s (pre ++ (pcm, now) :: post)).2 =
      [VADEvent.audio_ready_for_stt
        (rtake (cfg.rate * 10) (s.speech_buffer ++ chunksFlat pre ++ pcm))
        cfg.rate 2 1] ∧
    audioByteLen (VADEvent.audio_ready_for_stt
        (rtake (cfg.rate * 10) (s.speech_buffer ++ chunksFlat pre ++ pcm))
        cfg.rate 2 1) =
      2 * (rtake (cfg.rate * 10) (s.speech_buffer ++ chunksFlat pre ++ pcm)).length ∧
    (rtake (cfg.rate * 10) (s.speech_buffer ++ chunksFlat pre ++ pcm)).length
      ≤ cfg.rate * 10 ∧
    (runVAD cfg classify s (pre ++ [(pcm, now)])).1.speech_buffer = [] ∧
    (runVAD cfg classify s (pre ++ [(pcm, now)])).1.speech_detected = false ∧
    (runVAD cfg classify s (pre ++ (pcm, now) :: post)).1.speech_detected = false := by
  have htrPre : ∀ b ∈ vadTrace cfg classify s pre, b = false := by
    intro b hb
    apply htr
    rw [vadTrace_append]
    exact List.mem_append_left _ hb
  have hA := speakingGapRun cfg classify t pre s hsd hlst hsbLen hvbLen htrPre hpre
  have hcap : 0 < cfg.rate * 10 := Nat.mul_pos hrate (by norm_num)
  have hne2 : (s.speech_buffer ++ chunksFlat pre) ++ pcm ≠ [] := by
    intro hx
    rcases List.append_eq_nil.mp hx with ⟨h1, _⟩
    rcases List.append_eq_nil.mp h1 with ⟨h2, _⟩
    exact hsb h2
  have hclA : isSpeechStep cfg classify (runVAD cfg classify s pre).1 pcm = false := by
    apply htr
    rw [vadTrace_append, vadTrace_cons]
    exact List.mem_append_right _ (List.mem_cons_self _ _)
  have hsdA : (runVAD cfg classify s pre).1.speech_detected = true := by rw [hA]
  have hlstA : (runVAD cfg classify s pre).1.last_speech_time = some t := by rw [hA]
  have hsbA : (runVAD cfg classify s pre).1.speech_buffer =
      rtake (cfg.rate * 10) (s.speech_buffer ++ chunksFlat pre) := by rw [hA]
  have hlenA : 0 < (rtake (cfg.rate * 10)
      ((runVAD cfg classify s pre).1.speech_buffer ++ pcm)).length := by
    rw [hsbA, rtake_append_rtake]
    exact rtake_pos hcap hne2
  have hstep := processAudioChunk_emits cfg classify (runVAD cfg classify s pre).1
    pcm now t hclA hsdA hlstA ht hnow hlenA
  have hstep2 : processAudioChunk cfg classify (runVAD cfg classify s pre).1 pcm now =
      ({ speech_buffer := [],
         vad_buffer := rtake (cfg.rate / 10) (s.vad_buffer ++ chunksFlat pre ++ pcm),
         last_speech_time := none, speech_detected := false },
       [VADEvent.audio_ready_for_stt
          (rtake (cfg.rate * 10) (s.speech_buffer ++ chunksFlat pre ++ pcm))
          cfg.rate 2 1]) := by
    rw [hstep, hA]
    simp only [rtake_append_rtake]
  have hsingle : runVAD cfg classify (runVAD cfg classify s pre).1 [(pcm, now)] =
      ({ speech_buffer := [],
         vad_buffer := rtake (cfg.rate / 10) (s.vad_buffer ++ chunksFlat pre ++ pcm),
         last_speech_time := none, speech_detected := false },
       [VADEvent.audio_ready_for_stt
          (rtake (cfg.rate * 10) (s.speech_buffer ++ chunksFlat pre ++ pcm))
          cfg.rate 2 1]) := by
    rw [runVAD_cons, runVAD_nil]
    simp only at hstep2
    rw [hstep2]
    simp
  have hrun1 : runVAD cfg classify s (pre ++ [(pcm, now)]) =
      ({ speech_buffer := [],
         vad_buffer := rtake (cfg.rate / 10) (s.vad_buffer ++ chunksFlat pre ++ pcm),
         last_speech_time := none, speech_detected := false },
       [VADEvent.audio_ready_for_stt
          (rtake (cfg.rate * 10) (s.speech_buffer ++ chunksFlat pre ++ pcm))
          cfg.rate 2 1]) := by
    rw [runVAD_append, hsingle, hA]
    rfl
  have hpostTr : ∀ b ∈ vadTrace cfg classify
      ({ speech_buffer := [],
         vad_buffer := rtake (cfg.rate / 10) (s.vad_buffer ++ chunksFlat pre ++ pcm),
         last_speech_time := none, speech_detected := false } : VADState) post,
      b = false := by
    intro b hb
    apply htr
    rw [vadTrace_append, vadTrace_cons]
    apply List.mem_append_right
    apply List.mem_cons_of_mem
    have hst : (processAudioChunk cfg classify (runVAD cfg classify s pre).1
        (pcm, now).1 (pcm, now).2).1 =
        ({ speech_buffer := [],
           vad_buffer := rtake (cfg.rate / 10) (s.vad_buffer ++ chunksFlat pre ++ pcm),
           last_speech_time := none, speech_detected := false } : VADState) := by
      rw [show ((pcm, now).1 : List Int) = pcm from rfl,
        show ((pcm, now).2 : Int) = now from rfl, hstep2]
    rw [hst]
    exact hb
  have hpost := silentRun cfg classify post
    ({ speech_buffer := [],
       vad_buffer := rtake (cfg.rate / 10) (s.vad_buffer ++ chunksFlat pre ++ pcm),
       last_speech_time := none, speech_detected := false } : VADState)
    rfl hpostTr
  have hsplit : pre ++ (pcm, now) :: post = (pre ++ [(pcm, now)]) ++ post := by
    simp
  have hfull2 : (runVAD cfg classify s (pre ++ (pcm, now) :: post)).2 =
      [VADEvent.audio_ready_for_stt
        (rtake (cfg.rate * 10) (s.speech_buffer ++ chunksFlat pre ++ pcm))
        cfg.rate 2 1] := by
    rw [hsplit, runVAD_append, hrun1]
    dsimp only
    rw [hpost.1, List.append_nil]
  have hfullsd : (runVAD cfg classify s
      (pre ++ (pcm, now) :: post)).1.speech_detected = false := by
    rw [hsplit, runVAD_append, hrun1]
    dsimp only
    exact hpost.2.1
  refine ⟨hfull2, rfl, rtake_length_le _ _, ?_, ?_, hfullsd⟩
  · rw [hrun1]
  · rw [hrun1]

/-- Witness for the amended C1 at a concrete run: pre-gap `([1], 1100)`,
trigger `([2], 2100)`, one trailing silent chunk. -/
theorem vad_emission_amended_witness :
    vadTrace cexCfg silentClassify wSpeakState
      [([1], 1100), ([2], 2100), ([3], 2200)] = [false, false, false] ∧
    (runVAD cexCfg silentClassify wSpeakState
      [([1], 1100), ([2], 2100), ([3], 2200)]).2 =
      [VADEvent.audio_ready_for_stt
        (rtake (cexCfg.rate * 10)
          (wSpeakState.speech_buffer ++ chunksFlat [([1], 1100)] ++ [2]))
        cexCfg.rate 2 1] ∧
    (runVAD cexCfg silentClassify wSpeakState
      [([1], 1100), ([2], 2100)]).1.speech_buffer = [] :=
  ⟨by decide,
   (vad_emission_amended cexCfg silentClassify wSpeakState 1000
     [([1], 1100)] [([3], 2200)] [2] 2100 rfl rfl (by decide) (by decide)
     (by decide) (by decide) (by decide) (by decide) (by decide) (by decide)).1,
   (vad_emission_amended cexCfg silentClassify wSpeakState 1000
     [([1], 1100)] [([3], 2200)] [2] 2100 rfl rfl (by decide) (by decide)
     (by decide) (by decide) (by decide) (by decide) (by decide) (by decide)).2.2.2.1⟩

/-! ## C2 — the zero-crossing criterion -/

/-- Pointwise, the pair predicate of the code, `(0 ≤ b) ≠ (a < 0)` is the
negation of the sign-change predicate `(0 ≤ a) ≠ (0 ≤ b)`: the code counts
sign agreements, not sign changes. -/
theorem zcr_pair_negation (a b : Int) :
    (decide (0 ≤ b) != decide (a < 0)) = !(decide (0 ≤ a) != decide (0 ≤ b)) := by
  by_cases ha : (0 : Int) ≤ a <;> by_cases hb : (0 : Int) ≤ b <;>
    simp [ha, hb, not_le.symm]

/-- In every Bool list, the counts of `true` and `false` add to the length. -/
theorem count_false_eq (L : List Bool) :
    L.count false = L.length - L.count true := by
  induction L with
  | nil => rfl
  | cons x L ih =>
      have h := List.count_le_length true L
      cases x
      · simp [List.count_cons, ih]
        omega
      · simp [List.count_cons, ih]

/-- Counting `true` after negating is counting `false`. -/
theorem count_true_map_not (L : List Bool) :
    (L.map (fun x => !x)).count true = L.count false := by
  induction L with
  | nil => rfl
  | cons x L ih => cases x <;> simp [List.count_cons, ih]

/-- The code counts exactly the complement of the sign changes of the spec. -/
theorem zeroCrossings_eq_complement (pcm : List Int) :
    zeroCrossings pcm = (pcm.length - 1) - specSignChangeCount pcm := by
  unfold zeroCrossings specSignChangeCount
  have hfun : (fun a b : Int => decide (0 ≤ b) != decide (a < 0))
      = (fun a b : Int => !(decide (0 ≤ a) != decide (0 ≤ b))) := by
    funext a b
    exact zcr_pair_negation a b
  rw [hfun, ← List.map_zipWith, count_true_map_not, count_false_eq,
    List.length_zipWith, List.length_tail]
  omega

/-- C2 (code bug, evaluated at the failing window `[1, 1, 1, 1, -1]`): the
window has 1 sign change among its 4 adjacent pairs, so the specified
fraction is `1/4`, strictly inside the band `(0.1, 0.5)` — yet the code
computes `zcr = 3/4` (it counts the 3 sign *agreements*) and rejects the
window. -/
theorem zcr_code_bug :
    zcr [1, 1, 1, 1, -1] = 3 / 4 ∧
    zcrOk [1, 1, 1, 1, -1] = false ∧
    specSignChangeFrac [1, 1, 1, 1, -1] = 1 / 4 ∧
    ((1 : ℚ) / 10 < 1 / 4 ∧ (1 : ℚ) / 4 < 1 / 2) := by
  refine ⟨?_, ?_, ?_, by norm_num⟩
  · norm_num [zcr, zeroCrossings, List.count, List.countP, List.countP.go]
  · norm_num [zcrOk, zcr, zeroCrossings, List.count, List.countP, List.countP.go]
  · norm_num [specSignChangeFrac, specSignChangeCount, List.count, List.countP,
      List.countP.go]

/-! ## C3, C4, C10 — dispatch loop and chat workflow -/

/-- The dispatch loop processes every event of a finite stream, whatever
the handler does (including raising): it never terminates early. -/
theorem eventHandlerLoop_length
    (handler : List (String × String) → DispatchEvent →
      Except String (List (String × String) × List (String × String) × Nat))
    (hist : List (String × String)) (evs : List DispatchEvent) :
    (eventHandlerLoop handler hist evs).2.length = evs.length := by
  induction evs generalizing hist with
  | nil => rfl
  | cons ev rest ih => simp [eventHandlerLoop, ih]

/-- C3: a `transcription` event whose text is missing, empty or
whitespace-only makes no gateway call and publishes nothing; and the
dispatch loop survives every handler outcome — under an arbitrary
(possibly raising) handler, and in particular under the real dispatcher
wired to a gateway that always raises a timeout, it still processes every
event of the stream. -/
theorem dispatch_resilience :
    (∀ (chat : String → List (String × String) → Except String ChatResult)
       (hist : List (String × String)) (ev : DispatchEvent),
       ev.type = "transcription" → strBlank (ev.text.getD "") = true →
       dispatchEvent chat hist ev = (hist, ([], 0))) ∧
    (∀ handler (hist : List (String × String)) (evs : List DispatchEvent),
       (eventHandlerLoop handler hist evs).2.length = evs.length) ∧
    (∀ (e : String) (hist : List (String × String)) (evs : List DispatchEvent),
       (eventHandlerLoop (dispatchHandler (fun _ _ => Except.error e))
         hist evs).2.length = evs.length) := by
  refine ⟨?_, eventHandlerLoop_length, ?_⟩
  · intro chat hist ev h1 h2
    simp [dispatchEvent, h1, handleTranscription, h2]
  · intro e hist evs
    exact eventHandlerLoop_length _ hist evs

/-- Witness for C3: a whitespace-only transcription makes no gateway call,
and a two-event stream with an always-raising gateway is fully processed. -/
theorem dispatch_resilience_witness :
    dispatchEvent raisingChat [] { type := "transcription", text := some " " }
      = ([], ([], 0)) ∧
    (eventHandlerLoop (dispatchHandler raisingChat) []
      [{ type := "transcription", text := some "hi" },
       { type := "transcription", text := some "yo" }]).2.length = 2 :=
  ⟨dispatch_resilience.1 raisingChat []
     { type := "transcription", text := some " " } rfl (by decide),
   dispatch_resilience.2.2 "ReadTimeout" []
     [{ type := "transcription", text := some "hi" },
      { type := "transcription", text := some "yo" }]⟩

/-- C4: when the gateway returns (without raising) a response dict carrying
an `error` key, the `user` turn for the text is appended but no
`assistant` turn, and nothing is published. -/
theorem chat_error_field_history
    (chat : String → List (String × String) → Except String ChatResult)
    (hist : List (String × String)) (text : String)
    (result : ChatResult) (resp : ChatResponse)
    (hne : strBlank text = false)
    (hcall : chat text hist = Except.ok result)
    (hresp : result.response = some resp)
    (herr : resp.error.isSome = true) :
    handleTranscription chat hist text = (hist ++ [("user", text)], ([], 1)) := by
  cases he : resp.error with
  | none => rw [he] at herr; simp at herr
  | some msg => simp [handleTranscription, hne, hcall, hresp, he]

/-- Witness for C4 at a gateway answering `{error: "timeout"}`. -/
theorem chat_error_field_history_witness :
    handleTranscription errorFieldChat [] "hello"
      = ([("user", "hello")], ([], 1)) :=
  chat_error_field_history errorFieldChat [] "hello"
    { response := some { error := some "timeout", response := none },
      paymentResponse := none }
    { error := some "timeout", response := none }
    (by decide) rfl rfl rfl

/-- C10: when the gateway call raises, the history is left completely
unchanged — the `user` turn is not appended — and nothing is published
(the call was made exactly once). -/
theorem chat_raise_no_history
    (chat : String → List (String × String) → Except String ChatResult)
    (hist : List (String × String)) (text : String) (e : String)
    (hne : strBlank text = false)
    (hcall : chat text hist = Except.error e) :
    handleTranscription chat hist text = (hist, ([], 1)) := by
  simp [handleTranscription, hne, hcall]

/-- Witness for C10 at an always-raising gateway. -/
theorem chat_raise_no_history_witness :
    handleTranscription raisingChat [("user", "earlier")] "hello"
      = ([("user", "earlier")], ([], 1)) :=
  chat_raise_no_history raisingChat [("user", "earlier")] "hello" "ReadTimeout"
    (by decide) rfl

/-! ## C8 — supervisor startup abort -/

/-- C8: if the modules are `pre ++ [bad] ++ post` with every `start()` in
`pre` succeeding and that of `bad` raising, then exactly the modules of
`pre ++ [bad]` have `start()` invoked (no later module is started), loop
tasks are scheduled exactly for `pre` (none for `bad` or any later
module), and the error propagates to the caller. -/
theorem supervisor_start_abort {M E : Type} (startFn : M → Except E Unit)
    (pre : List M) (bad : M) (post : List M) (e : E)
    (hpre : ∀ m ∈ pre, startFn m = Except.ok ())
    (hbad : startFn bad = Except.error e) :
    agentCoreStart startFn (pre ++ bad :: post) = (pre ++ [bad], pre, some e) := by
  induction pre with
  | nil => simp [agentCoreStart, hbad]
  | cons m rest ih =>
      have hm : startFn m = Except.ok () := hpre m (List.mem_cons_self _ _)
      have hrest : ∀ x ∈ rest, startFn x = Except.ok () :=
        fun x hx => hpre x (List.mem_cons_of_mem _ hx)
      simp [agentCoreStart, hm, ih hrest]

/-- Witness for C8: module 1 (of `[0, 0, 1, 0]`, where `0` starts fine and
everything else raises) aborts startup with only the first two loop tasks
scheduled. -/
theorem supervisor_start_abort_witness :
    agentCoreStart
      (fun n : Nat => if n = 0 then Except.ok () else Except.error "boom")
      [0, 0, 1, 0] = ([0, 0, 1], [0, 0], some "boom") :=
  supervisor_start_abort
    (fun n : Nat => if n = 0 then Except.ok () else Except.error "boom")
    [0, 0] 1 [0] "boom"
    (by intro m hm; simp at hm; simp [hm]) rfl

/-! ## C5, C9 — event bus delivery and subscription -/

/-- Lookup lemma: `find?` commutes with a key-preserving entry update. -/
theorem find?_updateSubs {α : Type} (subs : List (String × List (List (String × α))))
    (ty ty2 : String)
    (g : List (List (String × α)) → List (List (String × α))) :
    ((updateSubs subs ty g).find? fun kv => kv.1 == ty2) =
      (subs.find? fun kv => kv.1 == ty2).map
        (fun kv => if kv.1 = ty then (kv.1, g kv.2) else kv) := by
  induction subs with
  | nil => rfl
  | cons kv rest ih =>
      have hkey : ((if kv.1 = ty then (kv.1, g kv.2) else kv).1 : String) = kv.1 := by
        split <;> rfl
      simp only [updateSubs, List.map_cons, List.find?_cons, hkey]
      cases h : (kv.1 == ty2) with
      | true => rfl
      | false => simpa only [updateSubs] using ih

/-- Effect of one `emit` on any lookup: queues under the emitted type each
gain the event at the back; all other entries are untouched. -/
theorem busLookup_emit {α : Type} (bus : EventBus α) (ty ty2 : String) (p : α) :
    busLookup (emit bus ty p) ty2 =
      (busLookup bus ty2).map
        (fun qs => if ty2 = ty then qs.map (fun q => q ++ [(ty, p)]) else qs) := by
  unfold busLookup emit
  dsimp only
  rw [find?_updateSubs]
  cases h : bus.subscribers.find? (fun kv => kv.1 == ty2) with
  | none => rfl
  | some kv =>
      have hbeq := List.find?_some h
      have hk : kv.1 = ty2 := eq_of_beq hbeq
      simp only [Option.map_some', hk]
      split <;> rfl

/-- C5: `emit` appends the event to the default queue, to every queue
registered under the emitted type, to no queue registered under any other
type, and — when the type has no subscriber entry — leaves the subscriber
table entirely unchanged while still reaching the default queue. -/
theorem event_bus_emit_delivery {α : Type} (bus : EventBus α) (ty : String) (p : α) :
    (emit bus ty p).default_queue = bus.default_queue ++ [(ty, p)] ∧
    (∀ qs, busLookup bus ty = some qs →
      busLookup (emit bus ty p) ty = some (qs.map fun q => q ++ [(ty, p)])) ∧
    (∀ ty2 qs, ty2 ≠ ty → busLookup bus ty2 = some qs →
      busLookup (emit bus ty p) ty2 = some qs) ∧
    (busLookup bus ty = none → (emit bus ty p).subscribers = bus.subscribers) := by
  refine ⟨rfl, ?_, ?_, ?_⟩
  · intro qs h
    rw [busLookup_emit, h]
    simp
  · intro ty2 qs hne h
    rw [busLookup_emit, h]
    simp [hne]
  · intro h
    have hnone : bus.subscribers.find? (fun kv => kv.1 == ty) = none := by
      cases hx : bus.subscribers.find? (fun kv => kv.1 == ty) with
      | none => rfl
      | some kv =>
          unfold busLookup at h
          rw [hx] at h
          simp at h
    have hall := List.find?_eq_none.mp hnone
    show updateSubs bus.subscribers ty _ = bus.subscribers
    unfold updateSubs
    rw [List.map_congr_left (g := fun kv => kv) ?_, List.map_id']
    intro kv hkv
    have : ¬kv.1 = ty := by
      intro hcontra
      exact hall kv hkv (by rw [hcontra]; exact beq_self_eq_true ty)
    simp [this]

/-- Witness for C5 on the concrete bus `wBus`. -/
theorem event_bus_emit_delivery_witness :
    busLookup wBus "a" = some [[]] ∧
    busLookup (emit wBus "a" 0) "a" = some [[("a", 0)]] ∧
    busLookup (emit wBus "a" 0) "b" = some [[]] ∧
    (emit wBus "a" 0).default_queue = [("a", 0)] :=
  ⟨rfl,
   by simpa using (event_bus_emit_delivery wBus "a" 0).2.1 [[]] rfl,
   (event_bus_emit_delivery wBus "a" 0).2.2.1 "b" [[]] (by decide) rfl,
   by simpa using (event_bus_emit_delivery wBus "a" 0).1⟩

/-- Registration appends a brand-new empty queue at the back of the entry
for the requested type (creating the entry if absent). -/
theorem busLookup_listenRegister {α : Type} (bus : EventBus α) (ty : String) :
    ∃ qs, busLookup (listenRegister bus ty) ty = some (qs ++ [[]]) := by
  cases h : bus.subscribers.find? (fun kv => kv.1 == ty) with
  | some kv =>
      have hbeq := List.find?_some h
      have hk : kv.1 = ty := eq_of_beq hbeq
      refine ⟨kv.2, ?_⟩
      unfold listenRegister busLookup
      dsimp only
      rw [h]
      simp only [Option.isSome_some, if_true]
      rw [find?_updateSubs, h]
      simp [hk]
  | none =>
      refine ⟨[], ?_⟩
      unfold listenRegister busLookup
      dsimp only
      rw [h]
      simp only [Option.isSome_none, Bool.false_eq_true, if_false]
      rw [find?_updateSubs, List.find?_append, h]
      simp

/-- Publishing a stream of events after registration: the entry for `ty`
keeps the same number of queues, and its last queue accumulates exactly
the published events whose type is `ty`, in order. -/
theorem emitAll_entry {α : Type} (ems : List (String × α)) :
    ∀ (bus : EventBus α) (ty : String) (qs : List (List (String × α)))
      (q : List (String × α)),
      busLookup bus ty = some (qs ++ [q]) →
      ∃ qs2, busLookup (emitAll bus ems) ty =
          some (qs2 ++ [q ++ ems.filter (fun e => e.1 == ty)]) ∧
        qs2.length = qs.length := by
  induction ems with
  | nil =>
      intro bus ty qs q h
      exact ⟨qs, by simpa using h, rfl⟩
  | cons e rest ih =>
      obtain ⟨t, pl⟩ := e
      intro bus ty qs q h
      by_cases hty : ty = t
      · have hl := busLookup_emit bus t ty pl
        rw [h] at hl
        simp only [Option.map_some', if_pos hty, List.map_append,
          List.map_cons, List.map_nil] at hl
        obtain ⟨qs2, h2, hlen⟩ := ih (emit bus t pl) ty
          (qs.map fun q2 => q2 ++ [(t, pl)]) (q ++ [(t, pl)]) hl
        refine ⟨qs2, ?_, by rw [hlen, List.length_map]⟩
        have hpe : ((t : String) == ty) = true := by
          rw [hty]
          exact beq_self_eq_true t
        simp only [emitAll]
        rw [h2]
        simp [List.filter_cons, hpe, List.append_assoc]
      · have hl := busLookup_emit bus t ty pl
        rw [h] at hl
        simp only [Option.map_some', if_neg hty] at hl
        obtain ⟨qs2, h2, hlen⟩ := ih (emit bus t pl) ty qs q hl
        refine ⟨qs2, ?_, hlen⟩
        have hpe : ((t : String) == ty) = false := by
          rw [beq_eq_false_iff_ne]
          exact fun hc => hty hc.symm
        simp only [emitAll]
        rw [h2]
        simp [List.filter_cons, hpe]

/-- C9: `listen(ty)` registers a brand-new empty queue for `ty`; after any
further publishes the entry still holds the same number of queues (the
queue is never removed), and that queue holds exactly the events of type
`ty` published after the call, in order — in particular nothing published
before the call, and its first dequeue is the first matching later
publish. -/
theorem event_bus_listen_fresh_queue {α : Type} (bus : EventBus α)
    (ty : String) (ems : List (String × α)) :
    ∃ qs, busLookup (listenRegister bus ty) ty = some (qs ++ [[]]) ∧
      ∃ qs2, busLookup (emitAll (listenRegister bus ty) ems) ty =
          some (qs2 ++ [ems.filter (fun e => e.1 == ty)]) ∧
        qs2.length = qs.length := by
  obtain ⟨qs, h⟩ := busLookup_listenRegister bus ty
  obtain ⟨qs2, h2, hlen⟩ := emitAll_entry ems (listenRegister bus ty) ty qs [] h
  exact ⟨qs, h, qs2, by simpa using h2, hlen⟩

end PythonRobot
